import Mathlib

/-!
Verification of the fantasy-lineup advisor's concurrent aggregation core.

The definitions below are a shallow embedding of the Python sources under
`src/advisor/`.  Python dictionaries are modelled as association lists with
Python's insertion semantics (first-seen key order, last write wins), Python
truthiness is made explicit, optional values become `Option`, timestamps and
other provider numerics become `ℚ`, and each network call site is replaced by
an explicit oracle describing that call's outcome (a response, or an
`httpx` error).
-/

namespace Advisor

/-! ## Python-semantics helpers -/

/-- Truthiness of a Python `str`: empty strings are falsy. -/
def truthyStr (s : String) : Bool := !s.isEmpty

/-- Truthiness of an `Optional[str]`: `None` and `""` are falsy. -/
def truthyOptStr (s : Option String) : Bool :=
  match s with
  | none => false
  | some v => !v.isEmpty

/-- Truthiness of an `Optional[float]`: `None` and `0.0` are falsy. -/
def truthyOptNum (x : Option ℚ) : Bool :=
  match x with
  | none => false
  | some v => v != 0

/-- Truthiness of an `Optional[int]`: `None` and `0` are falsy. -/
def truthyOptInt (x : Option Int) : Bool :=
  match x with
  | none => false
  | some v => v != 0

/-- Python's `str.lower()` (restricted to the ASCII case mapping), written
over the string's character list. -/
def pyLower (s : String) : String := ⟨s.data.map Char.toLower⟩

/-- Python's `a or b` for two optional strings: `a` when truthy, else `b`. -/
def pyOrStr (a b : Option String) : Option String :=
  if truthyOptStr a then a else b

/-- Assignment `d[k] = v` on a Python dict modelled as an association list:
an existing key keeps its position and gets the new value, a new key is
appended. -/
def dictInsert {α β : Type} [DecidableEq α] (m : List (α × β)) (k : α) (v : β) :
    List (α × β) :=
  if m.any (fun kv => kv.1 = k) then
    m.map (fun kv => if kv.1 = k then (kv.1, v) else kv)
  else m ++ [(k, v)]

/-- Python's `d.get(k)` on a dict modelled as an association list. -/
def dictGet {α β : Type} [DecidableEq α] (m : List (α × β)) (k : α) : Option β :=
  (m.find? (fun kv => kv.1 = k)).map (fun kv => kv.2)

/-! ## Data model (`src/advisor/clients/*.py`, `src/advisor/models.py`)

Raw provider collections are Python dicts; only the keys that the advisor
reads are modelled, each as the `Option` of its value (absent key = `none`).
-/

/-- One raw Sleeper roster entry (`rosters` JSON element). -/
structure RawRoster where
  roster_id : Option Int
  owner_id : Option String
  players : List String
deriving DecidableEq, Repr

/-- One raw Sleeper league user (`users` JSON element). -/
structure RawUser where
  user_id : Option String
  display_name : Option String
  username : Option String
deriving DecidableEq, Repr

/-- One raw Sleeper matchup entry (`matchups` JSON element). -/
structure RawMatchup where
  matchup_id : Option Int
  roster_id : Option Int
  players : List String
deriving DecidableEq, Repr

/-- The fields of a raw Sleeper player-directory record that
`SleeperClient.get_player_details` reads. -/
structure RawPlayer where
  full_name : Option String
  first_name : Option String
  position : Option String
  team : Option String
  injury_status : Option String
  injury_notes : Option String
  fantasy_positions : Option (List String)
  espn_id : Option String
deriving DecidableEq, Repr

/-- `SleeperPlayer` dataclass (`clients/sleeper.py`).  `name` is annotated
`str` in the source but is `full_name or first_name`, which can be `None`
at runtime, hence `Option String` here. -/
structure SleeperPlayer where
  player_id : String
  name : Option String
  position : Option String
  team : Option String
  injury_status : Option String
  injury_notes : Option String
  fantasy_positions : List String
  espn_id : Option String
deriving DecidableEq, Repr

/-- `TeamGame` dataclass (`clients/espn.py`); datetimes are modelled as `ℚ`
POSIX timestamps. -/
structure TeamGame where
  opponent_abbrev : Option String
  home : Bool
  stadium : Option String
  latitude : Option ℚ
  longitude : Option ℚ
  game_date : Option ℚ
deriving DecidableEq, Repr

/-- `PlayerPerformance` dataclass (`clients/espn.py`). -/
structure PlayerPerformance where
  player_id : String
  season : Int
  game_date : ℚ
  opponent : Option String
  team : Option String
  fantasy_points : Option ℚ
  snap_percentage : Option ℚ
deriving DecidableEq, Repr

/-- `FantasyProsProjection` dataclass (`clients/fantasypros.py`).  `name` is
annotated `str` but is filled from `player.get("player_name")`, which can be
`None`, hence `Option String`. -/
structure FantasyProsProjection where
  player_id : String
  name : Option String
  position : Option String
  team : Option String
  opponent : Option String
  projection : Option ℚ
  expert_consensus_rank : Option ℚ
deriving DecidableEq, Repr

/-- `WeatherForecast` dataclass (`clients/weather.py`). -/
structure WeatherForecast where
  summary : String
  temperature_f : ℚ
  wind_mph : ℚ
  precipitation_probability : ℚ
  kickoff_time : ℚ
deriving DecidableEq, Repr

/-- `PlayerContext` dataclass (`models.py`). -/
structure PlayerContext where
  sleeper : SleeperPlayer
  matchup : Option String
  expected_role : Option String
  team_game : Option TeamGame
  weather : Option WeatherForecast
  recent_performance : List PlayerPerformance
  fantasypros_weekly : Option FantasyProsProjection
  fantasypros_ros : Option FantasyProsProjection
deriving DecidableEq, Repr

/-- `TeamContext` dataclass (`models.py`); the `players` dict keeps roster
insertion order, so it is an association list here. -/
structure TeamContext where
  roster_id : Int
  owner : String
  week : Int
  players : List (String × PlayerContext)
deriving DecidableEq, Repr

/-! ## Resilient fetcher (`src/advisor/clients/base.py`)

`robust_get` wraps `client.get` + `raise_for_status` in
`AsyncRetrying(wait=wait_exponential(multiplier=0.6, min=1, max=8),
stop=stop_after_attempt(3), retry=retry_if_exception_type(httpx.RequestError),
reraise=True)`.  The embedding models one invocation against an oracle that
gives each attempt's transport-level outcome, and returns the final result,
the number of attempts actually made, and the list of backoff sleeps taken
between attempts. -/

/-- An `httpx.Response`, abstracted to its status code plus an opaque tag
standing for the rest of the payload. -/
structure HttpResponse where
  status : Nat
  tag : Nat
deriving DecidableEq, Repr

/-- The two `httpx.HTTPError` subfamilies that `robust_get` can surface:
`RequestError` (transport-level, abstracted to a tag) and `HTTPStatusError`
(raised by `raise_for_status`, carrying the response). -/
inductive HttpError where
  | requestError (tag : Nat)
  | statusError (response : HttpResponse)
deriving DecidableEq, Repr

/-- `httpx.Response.is_success`, the predicate behind `raise_for_status`:
status codes 200–299 succeed. -/
def isSuccessStatus (status : Nat) : Bool := 200 ≤ status && status < 300

/-- Tenacity's `wait_exponential(multiplier, max, exp_base=2, min)` (the
library the fetcher configures): the sleep after the failed attempt numbered
`attempt_number` is `multiplier * 2 ^ (attempt_number - 1)` clamped into
`[max 0 min, max]`. -/
def wait_exponential (multiplier mn mx : ℚ) (attempt_number : Nat) : ℚ :=
  max (max 0 mn) (min (multiplier * 2 ^ (attempt_number - 1)) mx)

/-- The backoff configured in `robust_get`:
`wait_exponential(multiplier=0.6, min=1, max=8)`. -/
def backoffWait (attempt_number : Nat) : ℚ :=
  wait_exponential (3 / 5) 1 8 attempt_number

/-- Outcome of one underlying `client.get`: a transport error
(`httpx.RequestError`, tagged) or a server response. -/
def GetOracle : Type := Nat → Except Nat HttpResponse

/-- The tenacity retry loop of `robust_get`.  `attempt` is the 1-based attempt
number, `remaining` the number of further attempts `stop_after_attempt`
still allows.  Each attempt runs `client.get` then `raise_for_status`; a
`RequestError` is retried (after sleeping `backoffWait attempt`) while
attempts remain and is re-raised unchanged otherwise (`reraise=True`); an
`HTTPStatusError` does not match `retry_if_exception_type(httpx.RequestError)`
and is raised immediately. -/
def retryAux (oracle : GetOracle) :
    Nat → Nat → Except HttpError HttpResponse × Nat × List ℚ
  | attempt, 0 =>
    match oracle attempt with
    | .ok r =>
      if isSuccessStatus r.status then (.ok r, attempt, [])
      else (.error (.statusError r), attempt, [])
    | .error e => (.error (.requestError e), attempt, [])
  | attempt, remaining + 1 =>
    match oracle attempt with
    | .ok r =>
      if isSuccessStatus r.status then (.ok r, attempt, [])
      else (.error (.statusError r), attempt, [])
    | .error _ =>
      let rest := retryAux oracle (attempt + 1) remaining
      (rest.1, rest.2.1, backoffWait attempt :: rest.2.2)

/-- `robust_get` (`clients/base.py`): up to 3 attempts total
(`stop_after_attempt(3)`), starting at attempt 1. -/
def robust_get (oracle : GetOracle) : Except HttpError HttpResponse × Nat × List ℚ :=
  retryAux oracle 1 2

/-! ## Pure helpers of `advisor_service.py` -/

/-- `_expected_role_from_status` (`advisor_service.py`): classification of the
expected role from the lowercased injury status. -/
def expectedRoleFromStatus (player : SleeperPlayer) : String :=
  let status := pyLower (player.injury_status.getD "")
  if status = "ir" then "Returning from IR, expect snap count monitoring"
  else if status = "questionable" ∨ status = "doubtful" then
    "Limited practice, monitor final injury report"
  else "Projected starter"

/-- A projection record matches in `_find_projection_for_player` when its
`name` is truthy and lowercases to the lowercased player name. -/
def projectionMatches (normalized : String) (p : FantasyProsProjection) : Bool :=
  truthyOptStr p.name && (pyLower (p.name.getD "") == normalized)

/-- `_find_projection_for_player` (`advisor_service.py`): the first projection
whose truthy name equals the player's name case-insensitively, else `none`. -/
def findProjectionForPlayer (projections : List FantasyProsProjection)
    (player_name : Option String) : Option FantasyProsProjection :=
  let normalized := pyLower (player_name.getD "")
  projections.find? (projectionMatches normalized)

/-- `_lookup_owner_name` (`advisor_service.py`): the display name, falling
back to the username, of the first user whose `user_id` equals `owner_id`
(Python `==`, so `None == None` matches); `"Unknown Manager"` otherwise. -/
def lookupOwnerName (owner_id : Option String) (users : List RawUser) : String :=
  match users.find? (fun u => u.user_id = owner_id) with
  | some u => ((pyOrStr u.display_name u.username).getD "Unknown Manager")
  | none => "Unknown Manager"

/-- The derived matchup link for one roster (`roster_matchups` dict values in
`_build_roster_matchups`). -/
structure MatchupInfo where
  matchup_id : Int
  opponent_roster_id : Option Int
  opponent_owner : Option String
deriving DecidableEq, Repr

/-- Grouping step of `_build_roster_matchups`: entries with a `matchup_id`
are grouped by it via `setdefault(...).append(...)`, so groups appear in
first-seen `matchup_id` order and each group lists its entries in discovery
order. -/
def groupByMatchupId (matchups : List RawMatchup) : List (Int × List RawMatchup) :=
  matchups.foldl
    (fun acc m =>
      match m.matchup_id with
      | none => acc
      | some mid =>
        if acc.any (fun g => g.1 = mid) then
          acc.map (fun g => if g.1 = mid then (g.1, g.2 ++ [m]) else g)
        else acc ++ [(mid, [m])])
    []

/-- The opponent entry `_build_roster_matchups` derives for a roster inside
its group: the first entry whose `roster_id` compares `!=` to it (an entry
with a `None` roster id also qualifies, since `None != rid`). -/
def opponentEntry (roster_entries : List RawMatchup) (roster_id : Int) :
    Option RawMatchup :=
  roster_entries.find? (fun e => e.roster_id ≠ some roster_id)

/-- `_build_roster_matchups` (`advisor_service.py`).  Note the Python guard
`if opponent_roster_id` before the owner lookup: an opponent roster id of `0`
is falsy, so its owner is not looked up. -/
def buildRosterMatchups (matchups : List RawMatchup)
    (owner_map : List (Int × String)) : List (Int × MatchupInfo) :=
  let by_matchup := groupByMatchupId matchups
  by_matchup.foldl
    (fun acc g =>
      g.2.foldl
        (fun acc2 entry =>
          match entry.roster_id with
          | none => acc2
          | some rid =>
            let oid := (opponentEntry g.2 rid).bind (fun e => e.roster_id)
            let oowner :=
              if truthyOptInt oid then dictGet owner_map (oid.getD 0) else none
            dictInsert acc2 rid ⟨g.1, oid, oowner⟩)
        acc)
    []

/-- `_map_player_matchups` (`advisor_service.py`): label every player id
appearing in a matchup entry with a description of that roster's opponent.
The `if matchup_id` guard makes a matchup id of `0` fall back to the short
description, like a missing one. -/
def mapPlayerMatchups (matchups : List RawMatchup)
    (roster_matchups : List (Int × MatchupInfo)) : List (String × String) :=
  matchups.foldl
    (fun lookup m =>
      match m.roster_id with
      | none => lookup
      | some rid =>
        let info := dictGet roster_matchups rid
        let opponent_owner := info.bind (fun i => i.opponent_owner)
        let matchup_id := info.map (fun i => i.matchup_id)
        let opponent_label :=
          if truthyOptStr opponent_owner then opponent_owner.getD ""
          else "Unknown opponent"
        let description :=
          if truthyOptInt matchup_id then
            "vs " ++ opponent_label ++ " (matchup " ++ toString (matchup_id.getD 0) ++ ")"
          else "vs " ++ opponent_label
        m.players.foldl (fun lk pid => dictInsert lk pid description) lookup)
    []

/-! ## Sleeper player details (`clients/sleeper.py`) -/

/-- How `SleeperClient.get_player_details` builds one `SleeperPlayer` from a
raw directory record keyed by `player_id`. -/
def mkSleeperPlayer (player_id : String) (raw : RawPlayer) : SleeperPlayer :=
  { player_id := player_id
    name := pyOrStr raw.full_name raw.first_name
    position := raw.position
    team := raw.team
    injury_status := raw.injury_status
    injury_notes := raw.injury_notes
    fantasy_positions := raw.fantasy_positions.getD []
    espn_id := if truthyOptStr raw.espn_id then some (raw.espn_id.getD "") else none }

/-- `SleeperClient.get_player_details`: for each requested id whose directory
record is present (truthy), store the corresponding `SleeperPlayer` under
that id. -/
def getPlayerDetails (player_ids : List String)
    (directory : String → Option RawPlayer) : List (String × SleeperPlayer) :=
  player_ids.foldl
    (fun result pid =>
      match directory pid with
      | some raw => dictInsert result pid (mkSleeperPlayer pid raw)
      | none => result)
    []

/-! ## Weather bucket selection (`clients/weather.py`) -/

/-- One OpenWeatherMap forecast bucket from the payload's `list`, reduced to
the keys `forecast_for_location` reads. -/
structure ForecastItem where
  dt : Option ℚ
  description : Option String
  temp : Option ℚ
  wind_speed : Option ℚ
  pop : Option ℚ
deriving DecidableEq, Repr

/-- The sort key of the bucket selection:
`abs(item.get("dt", 0) - target_timestamp)`. -/
def weatherKey (target : ℚ) (item : ForecastItem) : ℚ :=
  |item.dt.getD 0 - target|

/-- Python's `min(iterable, key=...)` over a non-empty list, written with the
head as the running minimum: a later element replaces the running minimum
only when its key is strictly smaller, so ties keep the earlier element. -/
def pyMin {α : Type} (key : α → ℚ) : α → List α → α
  | best, [] => best
  | best, x :: xs => pyMin key (if key x < key best then x else best) xs

/-- The bucket-selection core of `WeatherClient.forecast_for_location`:
`None` for an empty `list`, else the `min` by distance to kickoff. -/
def selectForecastBucket (items : List ForecastItem) (target : ℚ) :
    Option ForecastItem :=
  match items with
  | [] => none
  | x :: xs => some (pyMin (weatherKey target) x xs)

/-- `WeatherClient.forecast_for_location` after a successful fetch, given the
payload's forecast buckets and the kickoff's UTC timestamp. -/
def forecast_for_location (items : List ForecastItem) (kickoff : ℚ) :
    Option WeatherForecast :=
  match selectForecastBucket items kickoff with
  | none => none
  | some closest =>
    some
      { summary := closest.description.getD ""
        temperature_f := closest.temp.getD 0
        wind_mph := closest.wind_speed.getD 0
        precipitation_probability := closest.pop.getD 0 * 100
        kickoff_time := kickoff }

/-! ## Player context aggregation (`advisor_service.py`) -/

/-- Outcomes of the four enrichment calls `_build_player_context` can issue
for one player: team game (`espn_client.get_team_game`), weather
(`weather_client.forecast_for_location`), recent performance
(`espn_client.get_player_performance`) and the gathered FantasyPros pair
(`get_weekly_projection`, `get_rest_of_season_rank`).  An `error` value is
the call raising `httpx.HTTPError`. -/
structure EnrichOracle where
  teamGame : Except HttpError (Option TeamGame)
  weather : Except HttpError (Option WeatherForecast)
  performance : Except HttpError (List PlayerPerformance)
  projections : Except HttpError (List FantasyProsProjection × List FantasyProsProjection)

/-- `FantasyAdvisor._build_player_context`: assemble one `PlayerContext`,
degrading each enrichment independently.  The team game is fetched only for
a truthy team abbreviation and an `httpx.HTTPError` leaves it `None`; weather
is fetched only when the game has truthy coordinates and a kickoff time, with
the same degradation; performance needs a truthy `espn_id` and degrades to
`[]`; the FantasyPros pair needs a truthy position and degrades to two empty
lists before the per-name lookups. -/
def buildPlayerContext (sleeper_player : SleeperPlayer)
    (matchup_text : Option String) (oracle : EnrichOracle) : Option PlayerContext :=
  let expected_role := expectedRoleFromStatus sleeper_player
  let team_game : Option TeamGame :=
    if truthyOptStr sleeper_player.team then
      match oracle.teamGame with
      | .ok tg => tg
      | .error _ => none
    else none
  let weather : Option WeatherForecast :=
    if truthyOptStr sleeper_player.team then
      match team_game with
      | some tg =>
        if truthyOptNum tg.latitude && truthyOptNum tg.longitude
            && tg.game_date.isSome then
          match oracle.weather with
          | .ok w => w
          | .error _ => none
        else none
      | none => none
    else none
  let recent_performance : List PlayerPerformance :=
    if truthyOptStr sleeper_player.espn_id then
      match oracle.performance with
      | .ok perf => perf
      | .error _ => []
    else []
  let fp : Option FantasyProsProjection × Option FantasyProsProjection :=
    if truthyOptStr sleeper_player.position then
      let fetched :=
        match oracle.projections with
        | .ok pair => pair
        | .error _ => ([], [])
      (findProjectionForPlayer fetched.1 sleeper_player.name,
       findProjectionForPlayer fetched.2 sleeper_player.name)
    else (none, none)
  some
    { sleeper := sleeper_player
      matchup := matchup_text
      expected_role := some expected_role
      team_game := team_game
      weather := weather
      recent_performance := recent_performance
      fantasypros_weekly := fp.1
      fantasypros_ros := fp.2 }

/-- The per-player task list of `advise_lineup`: one
`_build_player_context` task per roster player whose shared-directory record
resolved (`for pid in player_ids if player_details.get(pid)`). -/
def playerTasks (player_ids : List String)
    (directory : String → Option RawPlayer) : List (String × SleeperPlayer) :=
  let player_details := getPlayerDetails player_ids directory
  player_ids.filterMap
    (fun pid => (dictGet player_details pid).map (fun p => (pid, p)))

/-- The `players_context` mapping `advise_lineup` assembles: run every
per-player task and store each produced context under its player id
(`players_context[context.sleeper.player_id] = context`). -/
def buildPlayersContext (player_ids : List String)
    (directory : String → Option RawPlayer)
    (player_matchups : List (String × String))
    (enrich : String → EnrichOracle) : List (String × PlayerContext) :=
  let tasks := playerTasks player_ids directory
  let results :=
    tasks.map
      (fun t => buildPlayerContext t.2 (dictGet player_matchups t.1) (enrich t.1))
  results.foldl
    (fun m ctx =>
      match ctx with
      | some c => dictInsert m c.sleeper.player_id c
      | none => m)
    []

/-- The hard failures `advise_lineup` can raise before assembling a
`TeamContext` (both are `ValueError`s in the source; the spec calls this
condition `NotFound`). -/
inductive AdvisorError where
  | notFound (msg : String)
deriving DecidableEq, Repr

/-- One unit of per-player work `advise_lineup` issues after the roster is
selected: the shared directory fetch, or one `_build_player_context` task. -/
inductive WorkItem where
  | playerDetailsFetch (player_ids : List String)
  | playerTask (player_id : String)
deriving DecidableEq, Repr

/-- `FantasyAdvisor.advise_lineup` (`advisor_service.py`) up to the
`TeamContext` it hands to the prompt stage.  League rosters, users and
matchups are given as already-fetched collections; `directory` is the shared
player directory behind `get_player_details`; `enrich` gives each player's
enrichment outcomes.  The second component records the per-player work
issued, in order. -/
def advise_lineup (league_id : String) (week : Int) (roster_id : Option Int)
    (rosters : List RawRoster) (users : List RawUser)
    (matchups : List RawMatchup) (directory : String → Option RawPlayer)
    (enrich : String → EnrichOracle) :
    Except AdvisorError TeamContext × List WorkItem :=
  let roster_map : List (Int × RawRoster) :=
    (rosters.filter (fun r => r.roster_id ≠ none)).foldl
      (fun m r => dictInsert m (r.roster_id.getD 0) r) []
  match roster_map with
  | [] =>
    (.error (.notFound ("No rosters found for Sleeper league " ++ league_id ++ ".")), [])
  | first_entry :: _ =>
    let owner_map : List (Int × String) :=
      rosters.foldl
        (fun m r =>
          match r.roster_id with
          | none => m
          | some rid => dictInsert m rid (lookupOwnerName r.owner_id users))
        []
    let target_roster_id :=
      match roster_id with
      | some rid => rid
      | none => first_entry.1
    match dictGet roster_map target_roster_id with
    | none =>
      (.error (.notFound ("Sleeper roster id " ++ toString target_roster_id
        ++ " was not found in league " ++ league_id ++ ".")), [])
    | some target_roster =>
      let owner := (dictGet owner_map target_roster_id).getD "Unknown Manager"
      let player_ids := target_roster.players.filter truthyStr
      let roster_matchups := buildRosterMatchups matchups owner_map
      let player_matchups := mapPlayerMatchups matchups roster_matchups
      let tasks := playerTasks player_ids directory
      let players_context :=
        buildPlayersContext player_ids directory player_matchups enrich
      (.ok
        { roster_id := target_roster.roster_id.getD 0
          owner := owner
          week := week
          players := players_context },
       WorkItem.playerDetailsFetch player_ids
         :: tasks.map (fun t => WorkItem.playerTask t.1))

/-! ## C2: retry policy of the resilient fetcher -/

/-- Behaviour of the tenacity loop from any starting attempt: the loop stops
within the allowed attempts, every attempt before the last was a transport
error (so only transport errors are ever retried), a status error is
surfaced at the attempt whose response raised it, a transport error escapes
only from the final allowed attempt and unchanged, and a success returns
that attempt's successful response. -/
theorem retryAux_spec (oracle : GetOracle) :
    ∀ (remaining attempt : Nat),
      attempt ≤ (retryAux oracle attempt remaining).2.1 ∧
      (retryAux oracle attempt remaining).2.1 ≤ attempt + remaining ∧
      (∀ k, attempt ≤ k → k < (retryAux oracle attempt remaining).2.1 →
        ∃ e, oracle k = Except.error e) ∧
      (∀ r, (retryAux oracle attempt remaining).1 = .error (.statusError r) →
        oracle (retryAux oracle attempt remaining).2.1 = Except.ok r ∧
        isSuccessStatus r.status = false) ∧
      (∀ e, (retryAux oracle attempt remaining).1 = .error (.requestError e) →
        (retryAux oracle attempt remaining).2.1 = attempt + remaining ∧
        oracle (attempt + remaining) = Except.error e) ∧
      (∀ r, (retryAux oracle attempt remaining).1 = .ok r →
        oracle (retryAux oracle attempt remaining).2.1 = Except.ok r ∧
        isSuccessStatus r.status = true) := by
  intro remaining
  induction remaining with
  | zero =>
    intro attempt
    cases h : oracle attempt with
    | ok r =>
      cases hs : isSuccessStatus r.status with
      | true =>
        have hred : retryAux oracle attempt 0 = (.ok r, attempt, []) := by
          simp [retryAux, h, hs]
        rw [hred]
        refine ⟨le_refl _, by dsimp only; omega, ?_, ?_, ?_, ?_⟩
        · intro k hk1 hk2
          dsimp only at hk2
          omega
        · intro r' hr'; simp at hr'
        · intro e' he'; simp at he'
        · intro r' hr'
          dsimp only at hr'
          cases hr'
          exact ⟨h, hs⟩
      | false =>
        have hred :
            retryAux oracle attempt 0 = (.error (.statusError r), attempt, []) := by
          simp [retryAux, h, hs]
        rw [hred]
        refine ⟨le_refl _, by dsimp only; omega, ?_, ?_, ?_, ?_⟩
        · intro k hk1 hk2
          dsimp only at hk2
          omega
        · intro r' hr'
          dsimp only at hr'
          rw [Except.error.injEq, HttpError.statusError.injEq] at hr'
          subst hr'
          exact ⟨h, hs⟩
        · intro e' he'; simp at he'
        · intro r' hr'; simp at hr'
    | error e =>
      have hred :
          retryAux oracle attempt 0 = (.error (.requestError e), attempt, []) := by
        simp [retryAux, h]
      rw [hred]
      refine ⟨le_refl _, by dsimp only; omega, ?_, ?_, ?_, ?_⟩
      · intro k hk1 hk2
        dsimp only at hk2
        omega
      · intro r' hr'; simp at hr'
      · intro e' he'
        dsimp only at he'
        rw [Except.error.injEq, HttpError.requestError.injEq] at he'
        subst he'
        exact ⟨by dsimp only; omega, by simpa using h⟩
      · intro r' hr'; simp at hr'
  | succ rem ih =>
    intro attempt
    cases h : oracle attempt with
    | ok r =>
      cases hs : isSuccessStatus r.status with
      | true =>
        have hred : retryAux oracle attempt (rem + 1) = (.ok r, attempt, []) := by
          simp [retryAux, h, hs]
        rw [hred]
        refine ⟨le_refl _, by dsimp only; omega, ?_, ?_, ?_, ?_⟩
        · intro k hk1 hk2
          dsimp only at hk2
          omega
        · intro r' hr'; simp at hr'
        · intro e' he'; simp at he'
        · intro r' hr'
          dsimp only at hr'
          cases hr'
          exact ⟨h, hs⟩
      | false =>
        have hred : retryAux oracle attempt (rem + 1)
            = (.error (.statusError r), attempt, []) := by
          simp [retryAux, h, hs]
        rw [hred]
        refine ⟨le_refl _, by dsimp only; omega, ?_, ?_, ?_, ?_⟩
        · intro k hk1 hk2
          dsimp only at hk2
          omega
        · intro r' hr'
          dsimp only at hr'
          rw [Except.error.injEq, HttpError.statusError.injEq] at hr'
          subst hr'
          exact ⟨h, hs⟩
        · intro e' he'; simp at he'
        · intro r' hr'; simp at hr'
    | error e =>
      obtain ⟨ih1, ih2, ih3, ih4, ih5, ih6⟩ := ih (attempt + 1)
      have hred : retryAux oracle attempt (rem + 1)
          = ((retryAux oracle (attempt + 1) rem).1,
             (retryAux oracle (attempt + 1) rem).2.1,
             backoffWait attempt :: (retryAux oracle (attempt + 1) rem).2.2) := by
        simp [retryAux, h]
      rw [hred]
      refine ⟨by dsimp only; omega, by dsimp only; omega, ?_, ?_, ?_, ?_⟩
      · intro k hk1 hk2
        dsimp only at hk2
        rcases Nat.eq_or_lt_of_le hk1 with rfl | hlt
        · exact ⟨e, h⟩
        · exact ih3 k hlt hk2
      · intro r' hr'
        dsimp only at hr' ⊢
        exact ih4 r' hr'
      · intro e' he'
        dsimp only at he' ⊢
        obtain ⟨hn, ho⟩ := ih5 e' he'
        refine ⟨by omega, ?_⟩
        rw [show attempt + (rem + 1) = attempt + 1 + rem from by omega]
        exact ho
      · intro r' hr'
        dsimp only at hr' ⊢
        exact ih6 r' hr'

/-- C2: the resilient fetcher retries only transport-level errors (every
attempt before the stopping one hit a transport error); a well-formed non-2xx
server response is raised as a status error at the very attempt that received
it, with no retry after it; at most 3 attempts are made; and the final
outcome is never wrapped: a request error is the last attempt's transport
error unchanged, a status error carries the exact offending response, and a
success is the stopping attempt's 2xx response. -/
theorem c2_robust_get_retry_policy (oracle : GetOracle) :
    1 ≤ (robust_get oracle).2.1 ∧ (robust_get oracle).2.1 ≤ 3 ∧
    (∀ k, 1 ≤ k → k < (robust_get oracle).2.1 →
      ∃ e, oracle k = Except.error e) ∧
    (∀ r, (robust_get oracle).1 = .error (.statusError r) →
      oracle (robust_get oracle).2.1 = Except.ok r ∧
      isSuccessStatus r.status = false) ∧
    (∀ e, (robust_get oracle).1 = .error (.requestError e) →
      (robust_get oracle).2.1 = 3 ∧ oracle 3 = Except.error e) ∧
    (∀ r, (robust_get oracle).1 = .ok r →
      oracle (robust_get oracle).2.1 = Except.ok r ∧
      isSuccessStatus r.status = true) := by
  have h := retryAux_spec oracle 2 1
  rw [show (1 + 2 : Nat) = 3 from rfl] at h
  exact h

/-- C2 witness: an oracle whose first attempt hits a transport error and
whose second returns a 200 response makes exactly 2 attempts, and the retry
policy theorem applied to it certifies the first attempt's transport error. -/
theorem c2_robust_get_retry_policy_witness :
    (∃ e, (fun n => if n = 1 then Except.error 5
        else Except.ok ⟨200, 3⟩ : GetOracle) 1 = Except.error e) ∧
    (robust_get (fun n => if n = 1 then Except.error 5
        else Except.ok ⟨200, 3⟩)).2.1 = 2 := by
  constructor
  · exact (c2_robust_get_retry_policy
      (fun n => if n = 1 then Except.error 5 else Except.ok ⟨200, 3⟩)).2.2.1
      1 (by norm_num) (by decide)
  · rfl

/-! ## C3: exponential backoff schedule -/

/-- C3 counterexample: the claim says the wait before the first retry is 0.6
time-units, but `wait_exponential(multiplier=0.6, min=1, max=8)` clamps the
nominal `0.6 * 2 ^ 0 = 0.6` up to the configured minimum of 1: a run whose
every attempt hits a transport error sleeps `[1, 6/5]`, so the schedule does
not start at `3/5`, and the second wait is not the double of the first. -/
theorem c3_backoff_counterexample :
    backoffWait 1 = 1 ∧ (1 : ℚ) ≠ 3 / 5 ∧
    (robust_get (fun _ => .error 0)).2.2 = [1, 6 / 5] ∧
    (6 / 5 : ℚ) ≠ 2 * 1 := by
  have h1 : backoffWait 1 = 1 := by
    rw [backoffWait, wait_exponential]; norm_num
  have h2 : backoffWait 2 = 6 / 5 := by
    rw [backoffWait, wait_exponential]; norm_num
  have hw : (robust_get (fun _ => .error 0)).2.2 = [backoffWait 1, backoffWait 2] := rfl
  refine ⟨h1, by norm_num, ?_, by norm_num⟩
  rw [hw, h1, h2]

/-- C3 (amended): the wait before retry `n` is the exponential schedule
`0.6 * 2 ^ (n - 1)` clamped into the interval `[1, 8]`: the first retry waits
1 time-unit (0.6 clamped up to the configured minimum), the second 1.2, the
third 2.4, the fourth 4.8, doubling while between the bounds, and every
retry from the fifth on waits the cap of 8. -/
theorem c3_backoff_amended :
    (∀ n : Nat, backoffWait (n + 1) = max 1 (min (3 / 5 * 2 ^ n) 8)) ∧
    backoffWait 1 = 1 ∧ backoffWait 2 = 6 / 5 ∧ backoffWait 3 = 12 / 5 ∧
    backoffWait 4 = 24 / 5 ∧
    (∀ n : Nat, 2 ≤ n → n ≤ 3 → backoffWait (n + 1) = 2 * backoffWait n) ∧
    (∀ n : Nat, 5 ≤ n → backoffWait n = 8) := by
  have hval : ∀ n : Nat, backoffWait (n + 1) = max 1 (min (3 / 5 * 2 ^ n) 8) := by
    intro n
    rw [backoffWait, wait_exponential]
    norm_num
  refine ⟨hval, ?_, ?_, ?_, ?_, ?_, ?_⟩
  · rw [show (1 : Nat) = 0 + 1 from rfl, hval]; norm_num
  · rw [show (2 : Nat) = 1 + 1 from rfl, hval]; norm_num
  · rw [show (3 : Nat) = 2 + 1 from rfl, hval]; norm_num
  · rw [show (4 : Nat) = 3 + 1 from rfl, hval]; norm_num
  · intro n h2 h3
    interval_cases n <;>
      · rw [backoffWait, backoffWait, wait_exponential, wait_exponential]
        norm_num
  · intro n h5
    obtain ⟨m, rfl⟩ : ∃ m, n = m + 5 := ⟨n - 5, by omega⟩
    rw [show m + 5 = (m + 4) + 1 from rfl, hval]
    have h16 : (2 : ℚ) ^ 4 ≤ 2 ^ (m + 4) :=
      pow_le_pow_right₀ (by norm_num) (by omega)
    have hcap : (8 : ℚ) ≤ 3 / 5 * 2 ^ (m + 4) := by nlinarith
    rw [min_eq_right hcap]
    norm_num

/-- C3 witness: via the amended schedule theorem, the seventh retry (well past
the cap) waits exactly 8 time-units. -/
theorem c3_backoff_witness : backoffWait 7 = 8 :=
  c3_backoff_amended.2.2.2.2.2.2 7 (by norm_num)

/-! ## Shared list lemmas -/

/-- A successful `find?` splits the list at the found element's first
occurrence: the element satisfies the predicate and everything before it
fails it. -/
theorem find?_eq_some_split {α : Type} (p : α → Bool) :
    ∀ (l : List α) (a : α), l.find? p = some a →
      p a = true ∧ ∃ pre suf, l = pre ++ a :: suf ∧ ∀ b ∈ pre, p b = false := by
  intro l
  induction l with
  | nil => intro a h; simp [List.find?] at h
  | cons x xs ih =>
    intro a h
    cases hx : p x with
    | true =>
      rw [List.find?, hx] at h
      cases h
      exact ⟨hx, [], xs, rfl, by simp⟩
    | false =>
      rw [List.find?, hx] at h
      obtain ⟨hpa, pre, suf, rfl, hpre⟩ := ih a h
      refine ⟨hpa, x :: pre, suf, rfl, ?_⟩
      intro b hb
      rcases List.mem_cons.mp hb with rfl | hb
      · exact hx
      · exact hpre b hb

/-- Python's `min(..., key=...)` returns an element of the starting segment
`b :: xs` whose key is minimal, and every element before its position has a
strictly greater key (equal keys keep the earlier element). -/
theorem pyMin_spec {α : Type} (key : α → ℚ) :
    ∀ (xs : List α) (b : α),
      (∀ y ∈ b :: xs, key (pyMin key b xs) ≤ key y) ∧
      ∃ pre suf, b :: xs = pre ++ pyMin key b xs :: suf ∧
        ∀ y ∈ pre, key (pyMin key b xs) < key y := by
  intro xs
  induction xs with
  | nil =>
    intro b
    refine ⟨?_, [], [], rfl, by simp⟩
    intro y hy
    rw [List.mem_singleton] at hy
    subst hy
    exact le_refl _
  | cons x t ih =>
    intro b
    by_cases hx : key x < key b
    · have hdef : pyMin key b (x :: t) = pyMin key x t := by
        rw [pyMin, if_pos hx]
      obtain ⟨hmin, pre, suf, hsplit, hpre⟩ := ih x
      rw [hdef]
      refine ⟨?_, b :: pre, suf, ?_, ?_⟩
      · intro y hy
        rcases List.mem_cons.mp hy with rfl | hy2
        · exact le_of_lt (lt_of_le_of_lt (hmin x (by simp)) hx)
        · exact hmin y hy2
      · rw [List.cons_append, ← hsplit]
      · intro y hy
        rcases List.mem_cons.mp hy with rfl | hy2
        · exact lt_of_le_of_lt (hmin x (by simp)) hx
        · exact hpre y hy2
    · have hdef : pyMin key b (x :: t) = pyMin key b t := by
        rw [pyMin, if_neg hx]
      obtain ⟨hmin, pre, suf, hsplit, hpre⟩ := ih b
      rw [hdef]
      have hminx : key (pyMin key b t) ≤ key x :=
        le_trans (hmin b (List.mem_cons_self b t)) (not_lt.mp hx)
      have hmin2 : ∀ y ∈ b :: x :: t, key (pyMin key b t) ≤ key y := by
        intro y hy
        rcases List.mem_cons.mp hy with rfl | hy2
        · exact hmin _ (List.mem_cons_self _ _)
        · rcases List.mem_cons.mp hy2 with rfl | hy3
          · exact hminx
          · exact hmin _ (List.mem_cons_of_mem _ hy3)
      cases pre with
      | nil =>
        rw [List.nil_append] at hsplit
        injection hsplit with h1 h2
        refine ⟨hmin2, [], x :: t, ?_, by simp⟩
        rw [List.nil_append, ← h1]
      | cons p pre2 =>
        rw [List.cons_append] at hsplit
        injection hsplit with h1 h2
        subst h1
        refine ⟨hmin2, b :: x :: pre2, suf, ?_, ?_⟩
        · rw [List.cons_append, List.cons_append, ← h2]
        · have hpb : key (pyMin key b t) < key b :=
            hpre b (List.mem_cons_self _ _)
          intro y hy
          rcases List.mem_cons.mp hy with rfl | hy2
          · exact hpb
          · rcases List.mem_cons.mp hy2 with rfl | hy3
            · exact lt_of_lt_of_le hpb (not_lt.mp hx)
            · exact hpre _ (List.mem_cons_of_mem _ hy3)

/-! ## C7: weather forecast bucket selection -/

/-- C7: for a non-empty list of forecast buckets the weather client selects
exactly a bucket whose timestamp has minimal absolute distance to kickoff,
and every bucket before the selected one is strictly farther (so
equal-distance ties go to the candidate encountered first); an empty bucket
list yields `none` rather than an error. -/
theorem c7_weather_bucket_selection (items : List ForecastItem) (target : ℚ) :
    (items = [] → selectForecastBucket items target = none ∧
      forecast_for_location items target = none) ∧
    (items ≠ [] → ∃ m pre suf,
      selectForecastBucket items target = some m ∧
      items = pre ++ m :: suf ∧
      (∀ y ∈ items, weatherKey target m ≤ weatherKey target y) ∧
      (∀ y ∈ pre, weatherKey target m < weatherKey target y)) := by
  constructor
  · rintro rfl
    exact ⟨rfl, rfl⟩
  · intro hne
    cases items with
    | nil => exact absurd rfl hne
    | cons x xs =>
      obtain ⟨hmin, pre, suf, hsplit, hpre⟩ := pyMin_spec (weatherKey target) xs x
      exact ⟨pyMin (weatherKey target) x xs, pre, suf, rfl, hsplit, hmin, hpre⟩

/-- C7 witness: with buckets at timestamps 10, 14, 6 and kickoff 12, the
buckets at 10 and at 14 are both 2 away; the selection theorem certifies that
a minimal-distance bucket is chosen with everything before it strictly
farther, and the selected bucket is the earlier tied one (timestamp 10). -/
theorem c7_weather_bucket_selection_witness :
    (∃ m pre suf,
      selectForecastBucket
          [⟨some 10, some "ten", none, none, none⟩,
           ⟨some 14, some "fourteen", none, none, none⟩,
           ⟨some 6, some "six", none, none, none⟩] 12 = some m ∧
      [⟨some 10, some "ten", none, none, none⟩,
       ⟨some 14, some "fourteen", none, none, none⟩,
       ⟨some 6, some "six", none, none, none⟩] = pre ++ m :: suf ∧
      (∀ y ∈ [(⟨some 10, some "ten", none, none, none⟩ : ForecastItem),
              ⟨some 14, some "fourteen", none, none, none⟩,
              ⟨some 6, some "six", none, none, none⟩],
        weatherKey 12 m ≤ weatherKey 12 y) ∧
      (∀ y ∈ pre, weatherKey 12 m < weatherKey 12 y)) ∧
    selectForecastBucket
        [⟨some 10, some "ten", none, none, none⟩,
         ⟨some 14, some "fourteen", none, none, none⟩,
         ⟨some 6, some "six", none, none, none⟩] 12
      = some ⟨some 10, some "ten", none, none, none⟩ := by
  constructor
  · exact (c7_weather_bucket_selection _ 12).2 (by simp)
  · rw [selectForecastBucket, pyMin, pyMin, weatherKey, weatherKey]
    norm_num
    rw [pyMin]
    norm_num [weatherKey]

/-! ## C8: projection lookup by name -/

/-- The selection rule C8 states, read literally: the first record whose name
equals the player's name under case-insensitive exact comparison (with no
truthiness guard on the record's name). -/
def findProjectionClaimed (projections : List FantasyProsProjection)
    (player_name : Option String) : Option FantasyProsProjection :=
  projections.find?
    (fun p =>
      match p.name with
      | some s => pyLower s == pyLower (player_name.getD "")
      | none => false)

/-- C8 counterexample: for a player named `""` and a single projection record
whose name is the equal (hence case-insensitively equal) string `""`, the
claim selects that record, but the code's truthiness guard
(`if projection.name`) skips falsy names, so the lookup returns `none`. -/
theorem c8_find_projection_counterexample :
    findProjectionForPlayer
        [{ player_id := "7", name := some "", position := none, team := none,
           opponent := none, projection := none, expert_consensus_rank := none }]
        (some "")
      = none ∧
    findProjectionClaimed
        [{ player_id := "7", name := some "", position := none, team := none,
           opponent := none, projection := none, expert_consensus_rank := none }]
        (some "")
      = some
          { player_id := "7", name := some "", position := none, team := none,
            opponent := none, projection := none, expert_consensus_rank := none } := by
  refine ⟨by decide, by decide⟩

/-- C8 (amended): the projection lookup returns the first record whose name
is present and non-empty and equals the player's name under case-insensitive
exact comparison (records whose name is absent or empty never match), and
returns `none` exactly when no record matches that rule; it never raises. -/
theorem c8_find_projection_amended (projections : List FantasyProsProjection)
    (player_name : Option String) :
    (∀ p, findProjectionForPlayer projections player_name = some p →
      p ∈ projections ∧ truthyOptStr p.name = true ∧
      pyLower (p.name.getD "") = pyLower (player_name.getD "") ∧
      ∃ pre suf, projections = pre ++ p :: suf ∧
        ∀ q ∈ pre, ¬(truthyOptStr q.name = true ∧
          pyLower (q.name.getD "") = pyLower (player_name.getD ""))) ∧
    (findProjectionForPlayer projections player_name = none ↔
      ∀ q ∈ projections, ¬(truthyOptStr q.name = true ∧
        pyLower (q.name.getD "") = pyLower (player_name.getD ""))) := by
  constructor
  · intro p hp
    obtain ⟨hmatch, pre, suf, rfl, hpre⟩ :=
      find?_eq_some_split _ _ _ hp
    have hm : truthyOptStr p.name = true ∧
        pyLower (p.name.getD "") = pyLower (player_name.getD "") := by
      have := hmatch
      simp [projectionMatches] at this
      exact this
    refine ⟨by simp, hm.1, hm.2, pre, suf, rfl, ?_⟩
    intro q hq hcontra
    have := hpre q hq
    simp [projectionMatches] at this
    exact absurd (this hcontra.1) (by simp [hcontra.2])
  · rw [findProjectionForPlayer, List.find?_eq_none]
    constructor
    · intro h q hq hcontra
      have := h q hq
      simp [projectionMatches] at this
      exact absurd (this hcontra.1) (by simp [hcontra.2])
    · intro h q hq
      simp only [projectionMatches, Bool.and_eq_true, beq_iff_eq, not_and]
      intro ht
      have := h q hq
      intro heq
      exact this ⟨ht, heq⟩

/-- C8 witness: with two projection records, the one matching the player's
name case-insensitively (`"A. Smith"` vs `"a. smith"`) is selected, and it is
the first (here: only) match, via the amended lookup theorem. -/
theorem c8_find_projection_witness :
    ({ player_id := "1", name := some "A. Smith", position := none,
       team := none, opponent := none, projection := none,
       expert_consensus_rank := none } : FantasyProsProjection) ∈
      [{ player_id := "0", name := some "B. Jones", position := none,
         team := none, opponent := none, projection := none,
         expert_consensus_rank := none },
       { player_id := "1", name := some "A. Smith", position := none,
         team := none, opponent := none, projection := none,
         expert_consensus_rank := none }] ∧
    pyLower ((some "A. Smith").getD "") = pyLower ((some "a. smith").getD "") := by
  have h :=
    (c8_find_projection_amended
      [{ player_id := "0", name := some "B. Jones", position := none,
         team := none, opponent := none, projection := none,
         expert_consensus_rank := none },
       { player_id := "1", name := some "A. Smith", position := none,
         team := none, opponent := none, projection := none,
         expert_consensus_rank := none }]
      (some "a. smith")).1
      { player_id := "1", name := some "A. Smith", position := none,
        team := none, opponent := none, projection := none,
        expert_consensus_rank := none }
      (by decide)
  exact ⟨h.1, h.2.2.1⟩

/-! ## Dictionary lemmas -/

/-- Membership after a dict assignment: every pair either was already in the
dict or is the newly assigned key/value pair. -/
theorem mem_dictInsert {α β : Type} [DecidableEq α] {m : List (α × β)}
    {k : α} {v : β} {p : α × β} (hp : p ∈ dictInsert m k v) :
    p ∈ m ∨ p = (k, v) := by
  rw [dictInsert] at hp
  split at hp
  · rcases List.mem_map.mp hp with ⟨kv, hkv, heq⟩
    by_cases h : kv.1 = k
    · rw [if_pos h] at heq
      right
      rw [← heq, h]
    · rw [if_neg h] at heq
      left
      rw [← heq]
      exact hkv
  · rcases List.mem_append.mp hp with h | h
    · left; exact h
    · right; simpa using h

/-- A successful dict lookup returns a pair of the dict. -/
theorem dictGet_mem {α β : Type} [DecidableEq α] {m : List (α × β)}
    {k : α} {v : β} (h : dictGet m k = some v) : (k, v) ∈ m := by
  rw [dictGet] at h
  cases hf : m.find? (fun kv => kv.1 = k) with
  | none => rw [hf] at h; cases h
  | some kv =>
    rw [hf] at h
    have hk : kv.1 = k := by
      have := List.find?_some hf
      simpa using this
    have hv : kv.2 = v := by
      simpa using h
    have hmem := List.mem_of_find?_eq_some hf
    rw [← hk, ← hv]
    simpa using hmem

/-- The value-overwriting map inside `dictInsert` preserves each pair's key. -/
theorem dictInsert_overwrite_key {α β : Type} [DecidableEq α] (k : α) (v : β)
    (kv : α × β) : ((if kv.1 = k then (kv.1, v) else kv) : α × β).1 = kv.1 := by
  split <;> rfl

/-- Looking up the key just assigned returns the assigned value. -/
theorem dictGet_dictInsert_self {α β : Type} [DecidableEq α] :
    ∀ (m : List (α × β)) (k : α) (v : β), dictGet (dictInsert m k v) k = some v := by
  intro m k v
  rw [dictInsert]
  split
  · rename_i hany
    rw [dictGet, List.find?_map]
    have hpred : ((fun kv => decide (kv.1 = k)) ∘
          (fun kv => if kv.1 = k then (kv.1, v) else kv) : α × β → Bool)
        = fun kv => decide (kv.1 = k) := by
      funext kv
      simp only [Function.comp_apply, dictInsert_overwrite_key]
    rw [hpred]
    have hsome : (m.find? (fun kv => decide (kv.1 = k))).isSome = true := by
      rw [List.find?_isSome]
      rcases List.any_eq_true.mp hany with ⟨kv, hkv, hp⟩
      exact ⟨kv, hkv, hp⟩
    cases hf : m.find? (fun kv => decide (kv.1 = k)) with
    | none => rw [hf] at hsome; cases hsome
    | some kv =>
      have hp := List.find?_some hf
      have hk : kv.1 = k := by simpa using hp
      simp [hk]
  · rename_i hany
    have hnone : m.find? (fun kv => decide (kv.1 = k)) = none := by
      rw [List.find?_eq_none]
      intro kv hkv hdec
      exact hany (List.any_eq_true.mpr ⟨kv, hkv, hdec⟩)
    rw [dictGet, List.find?_append, hnone]
    simp [List.find?]

/-- Looking up a different key is unaffected by an assignment. -/
theorem dictGet_dictInsert_ne {α β : Type} [DecidableEq α] :
    ∀ (m : List (α × β)) (k k' : α) (v : β), k' ≠ k →
      dictGet (dictInsert m k v) k' = dictGet m k' := by
  intro m k k' v hne
  rw [dictInsert]
  split
  · rw [dictGet, List.find?_map]
    have hpred : ((fun kv => decide (kv.1 = k')) ∘
          (fun kv => if kv.1 = k then (kv.1, v) else kv) : α × β → Bool)
        = fun kv => decide (kv.1 = k') := by
      funext kv
      simp only [Function.comp_apply, dictInsert_overwrite_key]
    rw [hpred, dictGet]
    cases hf : m.find? (fun kv => decide (kv.1 = k')) with
    | none => rfl
    | some kv =>
      have hp := List.find?_some hf
      have hk : kv.1 = k' := by simpa using hp
      have hkne : kv.1 ≠ k := by rw [hk]; exact hne
      simp [hkne]
  · rw [dictGet, List.find?_append, dictGet]
    have hsingle : List.find? (fun kv => decide (kv.1 = k')) [(k, v)] = none := by
      rw [List.find?_eq_none]
      intro kv hkv hdec
      rw [List.mem_singleton] at hkv
      subst hkv
      have hk : k = k' := by simpa using hdec
      exact hne hk.symm
    rw [hsingle]
    cases m.find? (fun kv => decide (kv.1 = k')) <;> rfl

/-- A property of pairs that holds on a fold's start and is preserved by each
step holds on every pair of the fold's result. -/
theorem foldl_mem_invariant {σ τ : Type} (P : τ → Prop) (step : List τ → σ → List τ)
    (hstep : ∀ acc x p, (∀ q ∈ acc, P q) → p ∈ step acc x → P p) :
    ∀ (l : List σ) (acc : List τ), (∀ q ∈ acc, P q) → ∀ p ∈ l.foldl step acc, P p := by
  intro l
  induction l with
  | nil => intro acc hacc p hp; exact hacc p hp
  | cons x xs ih =>
    intro acc hacc p hp
    exact ih (step acc x) (fun q hq => hstep acc x q hacc hq) p hp

/-- A fold of keyed assignments whose keys all differ from `x` leaves the
lookup of `x` unchanged. -/
theorem dictGet_foldl_insert_none {α β σ : Type} [DecidableEq α]
    (key : σ → α) (val : σ → β) :
    ∀ (l : List σ) (acc : List (α × β)) (x : α), (∀ s ∈ l, key s ≠ x) →
      dictGet (l.foldl (fun m s => dictInsert m (key s) (val s)) acc) x
        = dictGet acc x := by
  intro l
  induction l with
  | nil => intro acc x _; rfl
  | cons s t ih =>
    intro acc x h
    rw [List.foldl_cons,
      ih _ _ (fun s' hs' => h s' (List.mem_cons_of_mem _ hs'))]
    exact dictGet_dictInsert_ne _ _ _ _
      (fun he => h s (List.mem_cons_self _ _) he.symm)

/-- A dict assignment either keeps the key list unchanged (overwrite) or
appends the new key at the end. -/
theorem map_fst_dictInsert {α β : Type} [DecidableEq α]
    (m : List (α × β)) (k : α) (v : β) :
    (dictInsert m k v).map Prod.fst = m.map Prod.fst ∨
    (dictInsert m k v).map Prod.fst = m.map Prod.fst ++ [k] := by
  rw [dictInsert]
  split
  · left
    rw [List.map_map]
    have hf : (Prod.fst ∘ fun kv => if kv.1 = k then (kv.1, v) else kv)
        = (Prod.fst : α × β → α) := by
      funext kv
      exact dictInsert_overwrite_key k v kv
    rw [hf]
  · right
    simp

/-- Folding keyed assignments only ever extends the key list. -/
theorem foldl_dictInsert_keys {α β σ : Type} [DecidableEq α]
    (key : σ → α) (val : σ → β) :
    ∀ (l : List σ) (acc : List (α × β)), ∃ suffix,
      (l.foldl (fun m s => dictInsert m (key s) (val s)) acc).map Prod.fst
        = acc.map Prod.fst ++ suffix := by
  intro l
  induction l with
  | nil => intro acc; exact ⟨[], by simp⟩
  | cons s t ih =>
    intro acc
    obtain ⟨suf, hsuf⟩ := ih (dictInsert acc (key s) (val s))
    rw [List.foldl_cons]
    rcases map_fst_dictInsert acc (key s) (val s) with h | h
    · exact ⟨suf, by rw [hsuf, h]⟩
    · exact ⟨[key s] ++ suf, by rw [hsuf, h, List.append_assoc]⟩

/-- Member-restricted fold invariant: a property preserved by the step on the
list's members holds on every pair of the result. -/
theorem foldl_mem_invariant_mem {σ τ : Type} (P : τ → Prop) (step : List τ → σ → List τ) :
    ∀ (l : List σ) (acc : List τ), (∀ q ∈ acc, P q) →
      (∀ x ∈ l, ∀ acc2 p, (∀ q ∈ acc2, P q) → p ∈ step acc2 x → P p) →
      ∀ p ∈ l.foldl step acc, P p := by
  intro l
  induction l with
  | nil => intro acc hacc _ p hp; exact hacc p hp
  | cons x xs ih =>
    intro acc hacc hstep p hp
    exact ih (step acc x)
      (fun q hq => hstep x (List.mem_cons_self _ _) acc q hacc hq)
      (fun y hy => hstep y (List.mem_cons_of_mem _ hy)) p hp

/-! ## C4: empty roster set fails before any per-player work -/

/-- C4: when the fetched rosters contain no entry with a non-null roster id,
`advise_lineup` fails with the `NotFound` condition for the league and issues
no per-player work at all (no shared-directory fetch and no per-player
enrichment task), for every possible directory and enrichment behaviour. -/
theorem c4_empty_rosters (league_id : String) (week : Int) (roster_id : Option Int)
    (rosters : List RawRoster) (users : List RawUser) (matchups : List RawMatchup)
    (directory : String → Option RawPlayer) (enrich : String → EnrichOracle)
    (h : ∀ r ∈ rosters, r.roster_id = none) :
    advise_lineup league_id week roster_id rosters users matchups directory enrich
      = (.error (.notFound ("No rosters found for Sleeper league " ++ league_id ++ ".")),
         []) := by
  have hfil : rosters.filter (fun r => r.roster_id ≠ none) = [] := by
    rw [List.filter_eq_nil_iff]
    intro a ha
    simp [h a ha]
  rw [advise_lineup, hfil]
  rfl

/-- C4 witness: a league whose single roster entry has a null roster id fails
with `NotFound` and an empty work log, via the empty-roster theorem. -/
theorem c4_empty_rosters_witness :
    advise_lineup "league-9" 3 none [⟨none, some "owner", ["p1"]⟩] [] []
        (fun _ => none) (fun _ => ⟨.ok none, .ok none, .ok [], .ok ([], [])⟩)
      = (.error (.notFound ("No rosters found for Sleeper league " ++ "league-9" ++ ".")),
         []) :=
  c4_empty_rosters "league-9" 3 none [⟨none, some "owner", ["p1"]⟩] [] []
    (fun _ => none) (fun _ => ⟨.ok none, .ok none, .ok [], .ok ([], [])⟩) (by decide)

/-! ## C5: roster selection and missing-roster failure -/

/-- C5: when a requested roster id matches no roster, `advise_lineup` fails
with the `NotFound` condition whose message names that roster id and the
league, issuing no per-player work; when no roster id is requested, the
roster under the first non-null roster id encountered in the raw collection
(first-seen order) is selected, and the produced team context carries exactly
that roster id. -/
theorem c5_roster_selection (league_id : String) (week : Int)
    (rosters : List RawRoster) (users : List RawUser) (matchups : List RawMatchup)
    (directory : String → Option RawPlayer) (enrich : String → EnrichOracle) :
    (∀ rid : Int,
      rosters.filter (fun r => r.roster_id ≠ none) ≠ [] →
      (∀ r ∈ rosters, r.roster_id ≠ some rid) →
      advise_lineup league_id week (some rid) rosters users matchups directory enrich
        = (.error (.notFound ("Sleeper roster id " ++ toString rid
            ++ " was not found in league " ++ league_id ++ ".")), [])) ∧
    (∀ (r0 : RawRoster) (rs : List RawRoster),
      rosters.filter (fun r => r.roster_id ≠ none) = r0 :: rs →
      ∃ tc log,
        advise_lineup league_id week none rosters users matchups directory enrich
          = (.ok tc, log) ∧ some tc.roster_id = r0.roster_id) := by
  constructor
  · intro rid hne hmiss
    rcases hcase : rosters.filter (fun r => r.roster_id ≠ none) with _ | ⟨r0, rs⟩
    · exact absurd hcase hne
    have hstep0 : dictInsert ([] : List (Int × RawRoster)) (r0.roster_id.getD 0) r0
        = [(r0.roster_id.getD 0, r0)] := by
      simp [dictInsert]
    have hfold : (r0 :: rs).foldl (fun m r => dictInsert m (r.roster_id.getD 0) r) []
        = rs.foldl (fun m r => dictInsert m (r.roster_id.getD 0) r)
            [(r0.roster_id.getD 0, r0)] := by
      rw [List.foldl_cons, hstep0]
    have hnone : dictGet
        ((r0 :: rs).foldl (fun m r => dictInsert m (r.roster_id.getD 0) r) []) rid
        = none := by
      rw [← hcase]
      have hkeys : ∀ s ∈ rosters.filter (fun r => r.roster_id ≠ none),
          s.roster_id.getD 0 ≠ rid := by
        intro s hs
        have hmem := List.mem_of_mem_filter hs
        have hnn : s.roster_id ≠ none := by
          simpa using List.of_mem_filter hs
        obtain ⟨j, hj⟩ := Option.ne_none_iff_exists'.mp hnn
        rw [hj]
        intro hjx
        rw [Option.getD_some] at hjx
        exact hmiss s hmem (by rw [hj, hjx])
      calc dictGet ((rosters.filter (fun r => r.roster_id ≠ none)).foldl
              (fun m r => dictInsert m (r.roster_id.getD 0) r) []) rid
          = dictGet ([] : List (Int × RawRoster)) rid :=
            dictGet_foldl_insert_none _ _ _ _ _ hkeys
        _ = none := rfl
    obtain ⟨suffix, hkeysuf⟩ := foldl_dictInsert_keys
      (fun r : RawRoster => r.roster_id.getD 0) (fun r => r) rs
      [(r0.roster_id.getD 0, r0)]
    rcases hsh : rs.foldl (fun m r => dictInsert m (r.roster_id.getD 0) r)
        [(r0.roster_id.getD 0, r0)] with _ | ⟨p, t'⟩
    · rw [hsh] at hkeysuf
      simp at hkeysuf
    rw [hfold, hsh] at hnone
    rw [advise_lineup, hcase, hfold, hsh]
    dsimp only
    rw [hnone]
  · intro r0 rs hcase
    have hr0mem : r0 ∈ rosters.filter (fun r => r.roster_id ≠ none) := by
      rw [hcase]
      exact List.mem_cons_self _ _
    have hr0 : r0.roster_id ≠ none := by
      simpa using List.of_mem_filter hr0mem
    obtain ⟨rid0, hid0⟩ := Option.ne_none_iff_exists'.mp hr0
    have hstep0 : dictInsert ([] : List (Int × RawRoster)) (r0.roster_id.getD 0) r0
        = [(r0.roster_id.getD 0, r0)] := by
      simp [dictInsert]
    have hfold : (r0 :: rs).foldl (fun m r => dictInsert m (r.roster_id.getD 0) r) []
        = rs.foldl (fun m r => dictInsert m (r.roster_id.getD 0) r)
            [(r0.roster_id.getD 0, r0)] := by
      rw [List.foldl_cons, hstep0]
    have hinv : ∀ q ∈ rs.foldl (fun m r => dictInsert m (r.roster_id.getD 0) r)
        [(r0.roster_id.getD 0, r0)], (q.2).roster_id = some q.1 := by
      refine foldl_mem_invariant_mem _ _ rs [(r0.roster_id.getD 0, r0)] ?_ ?_
      · intro q hq
        rw [List.mem_singleton] at hq
        subst hq
        rw [hid0, Option.getD_some]
      · intro x hx acc2 q hacc2 hq
        rcases mem_dictInsert hq with h | rfl
        · exact hacc2 _ h
        · have hxf : x ∈ rosters.filter (fun r => r.roster_id ≠ none) := by
            rw [hcase]
            exact List.mem_cons_of_mem _ hx
          have hxnn : x.roster_id ≠ none := by
            simpa using List.of_mem_filter hxf
          obtain ⟨j, hj⟩ := Option.ne_none_iff_exists'.mp hxnn
          rw [hj, Option.getD_some]
    obtain ⟨suffix, hkeysuf⟩ := foldl_dictInsert_keys
      (fun r : RawRoster => r.roster_id.getD 0) (fun r => r) rs
      [(r0.roster_id.getD 0, r0)]
    rcases hsh : rs.foldl (fun m r => dictInsert m (r.roster_id.getD 0) r)
        [(r0.roster_id.getD 0, r0)] with _ | ⟨p, t'⟩
    · rw [hsh] at hkeysuf
      simp at hkeysuf
    have hp1 : p.1 = r0.roster_id.getD 0 := by
      rw [hsh] at hkeysuf
      rw [List.map_cons] at hkeysuf
      have := hkeysuf
      simp only [List.map_cons, List.map_nil, List.singleton_append] at this
      exact (List.cons.injEq _ _ _ _ ▸ this).1
    have hget : dictGet (p :: t') p.1 = some p.2 := by
      rw [dictGet, List.find?]
      simp
    have hpinv : (p.2).roster_id = some p.1 := by
      refine hinv p ?_
      rw [hsh]
      exact List.mem_cons_self _ _
    rw [advise_lineup, hcase, hfold, hsh]
    dsimp only
    rw [hget]
    refine ⟨_, _, rfl, ?_⟩
    dsimp only
    rw [hpinv, Option.getD_some, hp1, hid0, Option.getD_some]

/-- C5 witness: in a two-roster league, requesting the absent roster id 9
fails naming the id and the league with no per-player work, and requesting no
roster id selects roster 7, the first non-null roster id in the raw
collection. -/
theorem c5_roster_selection_witness :
    advise_lineup "lg" 1 (some 9)
        [⟨none, none, []⟩, ⟨some 7, some "u1", []⟩, ⟨some 4, some "u2", []⟩]
        [] [] (fun _ => none)
        (fun _ => ⟨.ok none, .ok none, .ok [], .ok ([], [])⟩)
      = (.error (.notFound ("Sleeper roster id " ++ toString (9 : Int)
          ++ " was not found in league " ++ "lg" ++ ".")), []) ∧
    (∃ tc log,
      advise_lineup "lg" 1 none
          [⟨none, none, []⟩, ⟨some 7, some "u1", []⟩, ⟨some 4, some "u2", []⟩]
          [] [] (fun _ => none)
          (fun _ => ⟨.ok none, .ok none, .ok [], .ok ([], [])⟩)
        = (.ok tc, log) ∧
      some tc.roster_id = (⟨some 7, some "u1", []⟩ : RawRoster).roster_id) := by
  constructor
  · exact (c5_roster_selection "lg" 1
      [⟨none, none, []⟩, ⟨some 7, some "u1", []⟩, ⟨some 4, some "u2", []⟩]
      [] [] (fun _ => none)
      (fun _ => ⟨.ok none, .ok none, .ok [], .ok ([], [])⟩)).1 9
      (by decide) (by decide)
  · exact (c5_roster_selection "lg" 1
      [⟨none, none, []⟩, ⟨some 7, some "u1", []⟩, ⟨some 4, some "u2", []⟩]
      [] [] (fun _ => none)
      (fun _ => ⟨.ok none, .ok none, .ok [], .ok ([], [])⟩)).2
      ⟨some 7, some "u1", []⟩ [⟨some 4, some "u2", []⟩] (by decide)

/-! ## C1: enrichment failures degrade a player's context, never drop it -/

/-- Lookup in the shared player-details map: a requested id resolves exactly
when its directory record is present, to the `SleeperPlayer` built from it. -/
theorem getPlayerDetails_lookup (directory : String → Option RawPlayer) :
    ∀ (ids : List String) (acc : List (String × SleeperPlayer)) (x : String),
      dictGet (ids.foldl (fun result pid =>
          match directory pid with
          | some raw => dictInsert result pid (mkSleeperPlayer pid raw)
          | none => result) acc) x
        = if x ∈ ids ∧ (directory x).isSome
          then (directory x).map (mkSleeperPlayer x)
          else dictGet acc x := by
  intro ids
  induction ids with
  | nil =>
    intro acc x
    rw [List.foldl_nil, if_neg]
    rintro ⟨hmem, _⟩
    cases hmem
  | cons pid t ih =>
    intro acc x
    rw [List.foldl_cons, ih]
    by_cases hin : x ∈ t ∧ (directory x).isSome
    · rw [if_pos hin, if_pos ⟨List.mem_cons_of_mem _ hin.1, hin.2⟩]
    · rw [if_neg hin]
      by_cases hpx : pid = x
      · subst hpx
        cases hd : directory pid with
        | some raw =>
          rw [if_pos ⟨List.mem_cons_self _ _, rfl⟩]
          exact dictGet_dictInsert_self _ _ _
        | none =>
          rw [if_neg]
          rintro ⟨_, hsome⟩
          cases hsome
      · have hcond : ¬(x ∈ pid :: t ∧ (directory x).isSome) := by
          rintro ⟨hmem, hsome⟩
          rcases List.mem_cons.mp hmem with rfl | hmem2
          · exact hpx rfl
          · exact hin ⟨hmem2, hsome⟩
        rw [if_neg hcond]
        cases hd : directory pid with
        | some raw =>
          exact dictGet_dictInsert_ne _ _ _ _ (fun he => hpx he.symm)
        | none => rfl

/-- Every `PlayerContext` the aggregator builds exists (`some`), keeps the
player record and matchup label, and degrades exactly the enrichments whose
fetches raised `httpx.HTTPError`: a failed team-game fetch leaves both the
game and the weather absent, a failed weather fetch leaves the weather
absent, a failed performance fetch leaves the list empty, and a failed
projections fetch leaves both projection fields absent. -/
theorem buildPlayerContext_failsoft (p : SleeperPlayer) (mt : Option String)
    (orc : EnrichOracle) :
    ∃ c, buildPlayerContext p mt orc = some c ∧ c.sleeper = p ∧ c.matchup = mt ∧
      (∀ e, orc.teamGame = .error e → c.team_game = none ∧ c.weather = none) ∧
      (∀ e, orc.weather = .error e → c.weather = none) ∧
      (∀ e, orc.performance = .error e → c.recent_performance = []) ∧
      (∀ e, orc.projections = .error e →
        c.fantasypros_weekly = none ∧ c.fantasypros_ros = none) := by
  refine ⟨_, rfl, rfl, rfl, ?_, ?_, ?_, ?_⟩
  · intro e he
    constructor <;> simp [he]
  · intro e he
    simp [he]
    intro _
    split <;> rfl
  · intro e he
    simp [he]
  · intro e he
    constructor <;> simp [he, findProjectionForPlayer]

/-- Lookup in the fold that stores each task's context under its player id:
when every task's player record is determined by its id and carries that id,
the lookup of `x` yields exactly the context built for `x` whenever some task
is for `x`, and falls through otherwise. -/
theorem contextFold_lookup (player_matchups : List (String × String))
    (enrich : String → EnrichOracle) (detFn : String → SleeperPlayer) :
    ∀ (tasks : List (String × SleeperPlayer)) (acc : List (String × PlayerContext))
      (x : String),
      (∀ t ∈ tasks, t.2 = detFn t.1 ∧ (detFn t.1).player_id = t.1) →
      dictGet ((tasks.map (fun t =>
          buildPlayerContext t.2 (dictGet player_matchups t.1) (enrich t.1))).foldl
          (fun m ctx => match ctx with
            | some c => dictInsert m c.sleeper.player_id c
            | none => m) acc) x
        = if ∃ t ∈ tasks, t.1 = x
          then buildPlayerContext (detFn x) (dictGet player_matchups x) (enrich x)
          else dictGet acc x := by
  intro tasks
  induction tasks with
  | nil =>
    intro acc x _
    rw [List.map_nil, List.foldl_nil, if_neg]
    rintro ⟨t, ht, _⟩
    cases ht
  | cons t ts ih =>
    intro acc x htasks
    obtain ⟨ht2, htid⟩ := htasks t (List.mem_cons_self _ _)
    obtain ⟨c, hc, hcs, -⟩ :=
      buildPlayerContext_failsoft t.2 (dictGet player_matchups t.1) (enrich t.1)
    rw [List.map_cons, List.foldl_cons, hc]
    have hkey : c.sleeper.player_id = t.1 := by
      rw [hcs, ht2, htid]
    rw [show (match some c with
        | some c => dictInsert acc c.sleeper.player_id c
        | none => acc) = dictInsert acc c.sleeper.player_id c from rfl, hkey]
    rw [ih (dictInsert acc t.1 c) x
      (fun s hs => htasks s (List.mem_cons_of_mem _ hs))]
    by_cases hex : ∃ s ∈ ts, s.1 = x
    · rw [if_pos hex, if_pos ⟨hex.choose, List.mem_cons_of_mem _ hex.choose_spec.1,
        hex.choose_spec.2⟩]
    · rw [if_neg hex]
      by_cases hx : t.1 = x
      · rw [if_pos ⟨t, List.mem_cons_self _ _, hx⟩]
        rw [hx] at hc ht2 ⊢
        rw [dictGet_dictInsert_self, ← hc, ht2]
      · rw [if_neg]
        · exact dictGet_dictInsert_ne _ _ _ _ (fun he => hx he.symm)
        · rintro ⟨s, hs, hsx⟩
          rcases List.mem_cons.mp hs with rfl | hs2
          · exact hx hsx
          · exact hex ⟨s, hs2, hsx⟩

/-- The raw record standing in for an unresolvable directory id when naming
the player-record function of a task id (never consulted for ids that did
resolve). -/
def emptyRawPlayer : RawPlayer :=
  ⟨none, none, none, none, none, none, none, none⟩

/-- Lookup in the assembled `players_context` mapping: a roster player id
resolves to the context built from its directory record, and is absent
exactly when its directory record is absent. -/
theorem buildPlayersContext_lookup (player_ids : List String)
    (directory : String → Option RawPlayer)
    (player_matchups : List (String × String)) (enrich : String → EnrichOracle)
    (x : String) (hx : x ∈ player_ids) :
    dictGet (buildPlayersContext player_ids directory player_matchups enrich) x
      = match directory x with
        | some raw => buildPlayerContext (mkSleeperPlayer x raw)
            (dictGet player_matchups x) (enrich x)
        | none => none := by
  have hdet : ∀ (a : String),
      dictGet (getPlayerDetails player_ids directory) a
        = if a ∈ player_ids ∧ (directory a).isSome
          then (directory a).map (mkSleeperPlayer a)
          else none :=
    fun a => getPlayerDetails_lookup directory player_ids [] a
  have htasks : ∀ s ∈ playerTasks player_ids directory,
      s.2 = mkSleeperPlayer s.1 ((directory s.1).getD emptyRawPlayer) ∧
      (mkSleeperPlayer s.1 ((directory s.1).getD emptyRawPlayer)).player_id = s.1 := by
    intro s hs
    rw [playerTasks] at hs
    rcases List.mem_filterMap.mp hs with ⟨a, ha, hmap⟩
    cases hget : dictGet (getPlayerDetails player_ids directory) a with
    | none => rw [hget] at hmap; cases hmap
    | some p =>
      rw [hget] at hmap
      have hmap2 : (some (a, p) : Option (String × SleeperPlayer)) = some s := hmap
      cases hmap2
      rw [hdet] at hget
      by_cases hcond : a ∈ player_ids ∧ (directory a).isSome
      · rw [if_pos hcond] at hget
        obtain ⟨raw, hraw⟩ := Option.isSome_iff_exists.mp hcond.2
        rw [hraw] at hget
        have hget2 : (some (mkSleeperPlayer a raw) : Option SleeperPlayer) = some p :=
          hget
        injection hget2 with hp
        refine ⟨?_, rfl⟩
        dsimp only
        rw [hraw, Option.getD_some]
        exact hp.symm
      · rw [if_neg hcond] at hget
        cases hget
  rw [buildPlayersContext]
  rw [contextFold_lookup player_matchups enrich
    (fun pid => mkSleeperPlayer pid ((directory pid).getD emptyRawPlayer))
    (playerTasks player_ids directory) [] x htasks]
  cases hd : directory x with
  | some raw =>
    have hcond : ∃ t ∈ playerTasks player_ids directory, t.1 = x := by
      refine ⟨(x, mkSleeperPlayer x raw), ?_, rfl⟩
      rw [playerTasks]
      refine List.mem_filterMap.mpr ⟨x, hx, ?_⟩
      rw [hdet, if_pos ⟨hx, by rw [hd]; rfl⟩, hd]
      rfl
    rw [if_pos hcond]
    rfl
  | none =>
    rw [if_neg]
    · rfl
    · rintro ⟨s, hs, hsx⟩
      rw [playerTasks] at hs
      rcases List.mem_filterMap.mp hs with ⟨a, ha, hmap⟩
      cases hget : dictGet (getPlayerDetails player_ids directory) a with
      | none => rw [hget] at hmap; cases hmap
      | some p =>
        rw [hget] at hmap
        have hmap2 : (some (a, p) : Option (String × SleeperPlayer)) = some s := hmap
        cases hmap2
        rw [hdet] at hget
        by_cases hcond : a ∈ player_ids ∧ (directory a).isSome
        · obtain ⟨raw, hraw⟩ := Option.isSome_iff_exists.mp hcond.2
          dsimp only at hsx
          rw [hsx, hd] at hraw
          cases hraw
        · rw [if_neg hcond] at hget
          cases hget

/-- C1: for every roster player id whose record exists in the shared player
directory, the aggregator's final mapping contains a `PlayerContext` for that
player whatever the four enrichment fetches do, with any fetch that failed
with an HTTP/transport error resolved to an absent value or empty list
(a failed team-game fetch also leaves the dependent weather absent); a roster
player is absent from the mapping exactly when it is missing from the shared
directory. -/
theorem c1_enrichment_failsoft (player_ids : List String)
    (directory : String → Option RawPlayer)
    (player_matchups : List (String × String)) (enrich : String → EnrichOracle)
    (pid : String) (hpid : pid ∈ player_ids) :
    (∀ raw, directory pid = some raw →
      ∃ ctx, dictGet (buildPlayersContext player_ids directory player_matchups enrich)
          pid = some ctx ∧
        ctx.sleeper = mkSleeperPlayer pid raw ∧
        (∀ e, (enrich pid).teamGame = .error e →
          ctx.team_game = none ∧ ctx.weather = none) ∧
        (∀ e, (enrich pid).weather = .error e → ctx.weather = none) ∧
        (∀ e, (enrich pid).performance = .error e → ctx.recent_performance = []) ∧
        (∀ e, (enrich pid).projections = .error e →
          ctx.fantasypros_weekly = none ∧ ctx.fantasypros_ros = none)) ∧
    (directory pid = none ↔
      dictGet (buildPlayersContext player_ids directory player_matchups enrich)
        pid = none) := by
  have hlook := buildPlayersContext_lookup player_ids directory player_matchups
    enrich pid hpid
  constructor
  · intro raw hraw
    rw [hraw] at hlook
    obtain ⟨c, hc, hcs, _, hteam, hweather, hperf, hproj⟩ :=
      buildPlayerContext_failsoft (mkSleeperPlayer pid raw)
        (dictGet player_matchups pid) (enrich pid)
    refine ⟨c, ?_, hcs, hteam, hweather, hperf, hproj⟩
    rw [hlook]
    exact hc
  · constructor
    · intro hnone
      rw [hnone] at hlook
      exact hlook
    · intro hnone
      cases hd : directory pid with
      | none => rfl
      | some raw =>
        obtain ⟨c, hc, -⟩ :=
          buildPlayerContext_failsoft (mkSleeperPlayer pid raw)
            (dictGet player_matchups pid) (enrich pid)
        rw [hlook, hd] at hnone
        have hnone2 : buildPlayerContext (mkSleeperPlayer pid raw)
            (dictGet player_matchups pid) (enrich pid) = none := hnone
        rw [hc] at hnone2
        cases hnone2

/-- C1 witness: a two-player roster where player `a` resolves in the
directory and every one of its enrichment fetches fails with an HTTP error,
while player `b` is missing from the directory: `a` still gets a context with
every enrichment field absent or empty, and `b` is omitted; both facts follow
from the fail-soft aggregation theorem. -/
theorem c1_enrichment_failsoft_witness :
    (∃ ctx, dictGet (buildPlayersContext ["a", "b"]
        (fun pid => if pid = "a" then some emptyRawPlayer else none) []
        (fun _ => ⟨.error (.requestError 1), .error (.requestError 2),
          .error (.requestError 3), .error (.requestError 4)⟩)) "a" = some ctx ∧
      ctx.team_game = none ∧ ctx.weather = none ∧
      ctx.recent_performance = [] ∧
      ctx.fantasypros_weekly = none ∧ ctx.fantasypros_ros = none) ∧
    dictGet (buildPlayersContext ["a", "b"]
        (fun pid => if pid = "a" then some emptyRawPlayer else none) []
        (fun _ => ⟨.error (.requestError 1), .error (.requestError 2),
          .error (.requestError 3), .error (.requestError 4)⟩)) "b" = none := by
  constructor
  · obtain ⟨ctx, hget, -, hteam, hweather, hperf, hproj⟩ :=
      (c1_enrichment_failsoft ["a", "b"]
        (fun pid => if pid = "a" then some emptyRawPlayer else none) []
        (fun _ => ⟨.error (.requestError 1), .error (.requestError 2),
          .error (.requestError 3), .error (.requestError 4)⟩)
        "a" (by decide)).1 emptyRawPlayer (by decide)
    obtain ⟨h1, h2⟩ := hteam (.requestError 1) rfl
    exact ⟨ctx, hget, h1, hweather (.requestError 2) rfl,
      hperf (.requestError 3) rfl, hproj (.requestError 4) rfl⟩
  · exact ((c1_enrichment_failsoft ["a", "b"]
      (fun pid => if pid = "a" then some emptyRawPlayer else none) []
      (fun _ => ⟨.error (.requestError 1), .error (.requestError 2),
        .error (.requestError 3), .error (.requestError 4)⟩)
      "b" (by decide)).2).mp (by decide)

/-! ## C6: derived opponent within a matchup group -/

/-- C6 counterexample: a matchup group with exactly two entries, both bearing
roster id 1, derives no opponent at all for roster 1 (the recorded opponent
roster id is `none`), while the claim says each entry's derived opponent is
the other entry (which has roster id 1). -/
theorem c6_opponent_counterexample :
    groupByMatchupId [⟨some 1, some 1, []⟩, ⟨some 1, some 1, []⟩]
      = [(1, [⟨some 1, some 1, []⟩, ⟨some 1, some 1, []⟩])] ∧
    opponentEntry [⟨some 1, some 1, []⟩, ⟨some 1, some 1, []⟩] 1 = none ∧
    dictGet (buildRosterMatchups [⟨some 1, some 1, []⟩, ⟨some 1, some 1, []⟩] []) 1
      = some ⟨1, none, none⟩ ∧
    (some (⟨some 1, some 1, []⟩ : RawMatchup) : Option RawMatchup) ≠ none := by
  refine ⟨by decide, by decide, by decide, by decide⟩

/-- C6 (amended): in a matchup group with exactly two entries bearing
distinct (non-null) roster ids, each entry's derived opponent is the other
entry; in general the derived opponent of an entry with roster id `rid` is
the first entry in discovery order whose roster id differs from `rid`
(entries with a null roster id count as differing), and no opponent is
derived exactly when every entry of the group carries `rid` itself. -/
theorem c6_opponent_amended :
    (∀ (a b : RawMatchup) (ra rb : Int), a.roster_id = some ra →
      b.roster_id = some rb → ra ≠ rb →
      opponentEntry [a, b] ra = some b ∧ opponentEntry [a, b] rb = some a) ∧
    (∀ (entries : List RawMatchup) (rid : Int),
      (∀ r, opponentEntry entries rid = some r →
        r.roster_id ≠ some rid ∧
        ∃ pre suf, entries = pre ++ r :: suf ∧
          ∀ e ∈ pre, e.roster_id = some rid) ∧
      (opponentEntry entries rid = none ↔
        ∀ e ∈ entries, e.roster_id = some rid)) := by
  constructor
  · intro a b ra rb ha hb hab
    constructor
    · rw [opponentEntry, List.find?, List.find?]
      simp [ha, hb, hab, Ne.symm hab]
    · rw [opponentEntry, List.find?]
      simp [ha, hb, hab, Ne.symm hab]
  · intro entries rid
    constructor
    · intro r hr
      obtain ⟨hpr, pre, suf, hsplit, hpre⟩ :=
        find?_eq_some_split _ _ _ hr
      refine ⟨by simpa using hpr, pre, suf, hsplit, ?_⟩
      intro e he
      have := hpre e he
      simpa using this
    · rw [opponentEntry, List.find?_eq_none]
      constructor
      · intro h e he
        have := h e he
        simpa using this
      · intro h e he
        simp [h e he]

/-- C6 amended-claim witness: in the two-entry group made of rosters 1 and 2,
roster 1's derived opponent is the roster-2 entry and conversely. -/
theorem c6_opponent_amended_witness :
    opponentEntry [⟨some 1, some 1, ["a"]⟩, ⟨some 1, some 2, ["b"]⟩] 1
      = some ⟨some 1, some 2, ["b"]⟩ ∧
    opponentEntry [⟨some 1, some 1, ["a"]⟩, ⟨some 1, some 2, ["b"]⟩] 2
      = some ⟨some 1, some 1, ["a"]⟩ :=
  c6_opponent_amended.1 ⟨some 1, some 1, ["a"]⟩ ⟨some 1, some 2, ["b"]⟩ 1 2
    rfl rfl (by decide)

/-! ## C10: no roster is its own opponent -/

/-- C10: in the derived roster-matchup map, whenever a roster id is recorded
with a present opponent roster id, that opponent id differs from the roster's
own id. -/
theorem c10_no_self_opponent (matchups : List RawMatchup)
    (owner_map : List (Int × String)) (rid : Int) (info : MatchupInfo)
    (hget : dictGet (buildRosterMatchups matchups owner_map) rid = some info) :
    ∀ oid, info.opponent_roster_id = some oid → oid ≠ rid := by
  have hmem : (rid, info) ∈ buildRosterMatchups matchups owner_map :=
    dictGet_mem hget
  have hall : ∀ p ∈ buildRosterMatchups matchups owner_map,
      ∀ o, (p.2).opponent_roster_id = some o → o ≠ p.1 := by
    rw [buildRosterMatchups]
    refine foldl_mem_invariant _ _ ?_ _ _ (by simp)
    intro acc g p hacc hp
    refine foldl_mem_invariant _ _ ?_ g.2 acc hacc p hp
    intro acc2 entry q hacc2 hq
    cases he : entry.roster_id with
    | none =>
      rw [he] at hq
      exact hacc2 q hq
    | some erid =>
      rw [he] at hq
      rcases mem_dictInsert hq with h | rfl
      · exact hacc2 q h
      · intro o ho
        dsimp only at ho ⊢
        cases hfind : opponentEntry g.2 erid with
        | none => rw [hfind] at ho; cases ho
        | some r =>
          rw [hfind] at ho
          have hpr := List.find?_some hfind
          have hne : r.roster_id ≠ some erid := by simpa using hpr
          intro hoe
          apply hne
          have ho' : r.roster_id = some o := by simpa using ho
          rw [ho', hoe]
  exact hall (rid, info) hmem

/-- C10 witness: in a one-group league where rosters 1 and 2 meet, roster 1's
recorded opponent is roster 2, and the invariant theorem yields `2 ≠ 1`. -/
theorem c10_no_self_opponent_witness :
    dictGet (buildRosterMatchups
        [⟨some 1, some 1, []⟩, ⟨some 1, some 2, []⟩] []) 1
      = some ⟨1, some 2, none⟩ ∧ (2 : Int) ≠ 1 :=
  ⟨by decide,
   c10_no_self_opponent [⟨some 1, some 1, []⟩, ⟨some 1, some 2, []⟩] [] 1
     ⟨1, some 2, none⟩ (by decide) 2 (by decide)⟩

/-! ## C9: expected-role classification -/

/-- C9 counterexample: the claim says any status other than the exact strings
`"IR"`, `"questionable"` and `"doubtful"` (including absent) yields the
presumed-starter label, but the code lowercases the status first: a player
whose injury status is the distinct string `"Ir"` gets the returning-from-IR
note, not the presumed-starter label. -/
theorem c9_expected_role_counterexample :
    expectedRoleFromStatus
        { player_id := "p1", name := some "A Back", position := some "RB",
          team := some "NE", injury_status := some "Ir", injury_notes := none,
          fantasy_positions := [], espn_id := none }
      = "Returning from IR, expect snap count monitoring" ∧
    ("Ir" : String) ≠ "IR" ∧ ("Ir" : String) ≠ "questionable" ∧
    ("Ir" : String) ≠ "doubtful" ∧
    "Returning from IR, expect snap count monitoring" ≠ "Projected starter" := by
  refine ⟨by decide, by decide, by decide, by decide, by decide⟩

/-- C9 (amended): expected-role classification is a pure function of the
player's injury status alone, compared case-insensitively after treating an
absent status as the empty string: a status lowercasing to `"ir"` yields the
returning-from-IR note, one lowercasing to `"questionable"` or `"doubtful"`
yields the monitor note, and every other status (including absent) yields the
presumed-starter label, regardless of every other player field. -/
theorem c9_expected_role_amended (p : SleeperPlayer) :
    (pyLower (p.injury_status.getD "") = "ir" →
      expectedRoleFromStatus p = "Returning from IR, expect snap count monitoring") ∧
    (pyLower (p.injury_status.getD "") = "questionable" ∨
        pyLower (p.injury_status.getD "") = "doubtful" →
      expectedRoleFromStatus p = "Limited practice, monitor final injury report") ∧
    (pyLower (p.injury_status.getD "") ≠ "ir" →
      pyLower (p.injury_status.getD "") ≠ "questionable" →
      pyLower (p.injury_status.getD "") ≠ "doubtful" →
      expectedRoleFromStatus p = "Projected starter") ∧
    (∀ q : SleeperPlayer, q.injury_status = p.injury_status →
      expectedRoleFromStatus q = expectedRoleFromStatus p) := by
  refine ⟨?_, ?_, ?_, ?_⟩
  · intro h
    simp [expectedRoleFromStatus, h]
  · intro h
    rcases h with h | h <;>
      · rw [expectedRoleFromStatus]
        rw [h]
        decide
  · intro h1 h2 h3
    rw [expectedRoleFromStatus]
    rw [if_neg h1, if_neg]
    intro hor
    rcases hor with h | h
    · exact h2 h
    · exact h3 h
  · intro q hq
    rw [expectedRoleFromStatus, expectedRoleFromStatus, hq]

/-- C9 witness: a player whose status is exactly `"IR"` gets the
returning-from-IR note, via the amended classification theorem. -/
theorem c9_expected_role_witness :
    expectedRoleFromStatus
        { player_id := "p2", name := none, position := none, team := none,
          injury_status := some "IR", injury_notes := none,
          fantasy_positions := [], espn_id := none }
      = "Returning from IR, expect snap count monitoring" :=
  (c9_expected_role_amended _).1 (by decide)

end Advisor
